import Mathlib

/-!
Verification of the Hub Fuel Counter core logic
(`lib/fuel_counter/fuel_counter.{h,cpp}` plus the aggregator glue in
`src/main.cpp`).

The C++ code is shallowly embedded: `uint16_t`/`uint32_t` values are
modelled as `Nat`, with wrap-around applied explicitly (`% 2^16`,
`% 2^32`) exactly where the machine arithmetic of the source wraps.
Lanes are a `structure` mirroring `struct Lane`; the lane array of
`main.cpp` is a `List Lane`.
-/

namespace FuelCounter

/-- Modulus of a `uint32_t` value. -/
def U32 : Nat := 2 ^ 32

/-- Modulus of a `uint16_t` value. -/
def U16 : Nat := 2 ^ 16

/-- Wrapping `uint32_t` subtraction `a - b`, for `a b < U32`. -/
def u32sub (a b : Nat) : Nat := (a + U32 - b) % U32

/-- Wrapping `uint16_t` subtraction `a - b`, for `a b < U16`. -/
def u16sub (a b : Nat) : Nat := (a + U16 - b) % U16

/-- `enum class LaneState : uint8_t { IDLE, BALL_PRESENT, LOCKOUT }`. -/
inductive LaneState where
  | IDLE
  | BALL_PRESENT
  | LOCKOUT
deriving DecidableEq

/-- `struct Lane` from `fuel_counter.h`, field for field. -/
structure Lane where
  baseline_mm : Nat
  threshold_mm : Nat
  clearThresh_mm : Nat
  count : Nat
  state : LaneState
  lockoutStart : Nat
  sensorOk : Bool
  lastDistance_mm : Nat
deriving DecidableEq

/-- A default-constructed `Lane` (the C++ member initializers). -/
def laneDefault : Lane :=
  { baseline_mm := 0, threshold_mm := 0, clearThresh_mm := 0, count := 0,
    state := LaneState.IDLE, lockoutStart := 0, sensorOk := false,
    lastDistance_mm := 0 }

/-- `processLaneReading` from `fuel_counter.cpp`.  The C++ function
mutates the lane in place and returns a `bool`; here it returns the
updated lane paired with that `bool`.  `lastDistance_mm` is written in
every branch of the `switch`, which is the same as the source's single
write before the `switch`; `count++` and `now_ms - lockoutStart` use
the wrap-around semantics of `uint32_t`. -/
def processLaneReading (lane : Lane) (distance_mm now_ms lockout_ms : Nat) :
    Lane × Bool :=
  if lane.sensorOk = false then (lane, false)
  else
    match lane.state with
    | LaneState.IDLE =>
        if distance_mm < lane.threshold_mm then
          ({ lane with lastDistance_mm := distance_mm,
                       state := LaneState.BALL_PRESENT }, false)
        else
          ({ lane with lastDistance_mm := distance_mm }, false)
    | LaneState.BALL_PRESENT =>
        if lane.clearThresh_mm < distance_mm then
          ({ lane with lastDistance_mm := distance_mm,
                       count := (lane.count + 1) % U32,
                       state := LaneState.LOCKOUT,
                       lockoutStart := now_ms }, true)
        else
          ({ lane with lastDistance_mm := distance_mm }, false)
    | LaneState.LOCKOUT =>
        if lockout_ms ≤ u32sub now_ms lane.lockoutStart then
          ({ lane with lastDistance_mm := distance_mm,
                       state := LaneState.IDLE }, false)
        else
          ({ lane with lastDistance_mm := distance_mm }, false)

/-- `calculateThresholds` from `fuel_counter.cpp`.  Both the
subtraction `baseline_mm - detection_delta_mm` and the addition
`threshold_mm + clear_hysteresis_mm` are `uint16_t` arithmetic and
wrap modulo `2^16`. -/
def calculateThresholds (lane : Lane)
    (baseline_mm detection_delta_mm clear_hysteresis_mm : Nat) : Lane :=
  let threshold := u16sub baseline_mm detection_delta_mm
  { lane with baseline_mm := baseline_mm,
              threshold_mm := threshold,
              clearThresh_mm := (threshold + clear_hysteresis_mm) % U16 }

/-- Body of the `for` loop of `resetLanes`: one lane's reset
(`count = 0; state = IDLE;` — nothing else is written). -/
def resetLane (lane : Lane) : Lane :=
  { lane with count := 0, state := LaneState.IDLE }

/-- The `for (i = 0; i < num_lanes; i++)` loop of `resetLanes`,
resetting the first `num_lanes` lanes of the array. -/
def resetLanesLoop : List Lane → Nat → List Lane
  | [], _ => []
  | lanes, 0 => lanes
  | lane :: lanes, Nat.succ n => resetLane lane :: resetLanesLoop lanes n

/-- `resetLanes` from `fuel_counter.cpp`: resets the first `num_lanes`
lanes and zeroes the total (the C++ writes through references; here the
new array and the new total are returned). -/
def resetLanes (lanes : List Lane) (num_lanes : Nat) : List Lane × Nat :=
  (resetLanesLoop lanes num_lanes, 0)

/-- The aggregator state of `main.cpp`: the global `lanes[]` array and
the global `totalCount` (`uint32_t`). -/
structure MainState where
  lanes : List Lane
  totalCount : Nat
deriving DecidableEq

/-- `updateLane` from `main.cpp`, with the sensor reading supplied as an
argument (acquisition is an external collaborator; a read timeout is
simply the absence of a call).  The early `return` on `!sensorOk` skips
the lane; otherwise the lane is processed and `totalCount++` (a
`uint32_t` increment) happens exactly when the lane call counted. -/
def updateLane (s : MainState) (ch : Nat) (dist now lockout : Nat) : MainState :=
  match s.lanes.get? ch with
  | none => s
  | some lane =>
      if lane.sensorOk = false then s
      else
        let r := processLaneReading lane dist now lockout
        { lanes := s.lanes.set ch r.1,
          totalCount := if r.2 then (s.totalCount + 1) % U32 else s.totalCount }

/-- The operations the surrounding program performs on the aggregator
state: a per-lane processing step (`updateLane`) or a bulk reset
(`resetLanes` over the whole `FC_NUM_LANES`-element array). -/
inductive SysOp where
  | process (ch dist now lockout : Nat)
  | reset
deriving DecidableEq

/-- Apply one operation to the aggregator state. -/
def applyOp (s : MainState) : SysOp → MainState
  | SysOp.process ch dist now lockout => updateLane s ch dist now lockout
  | SysOp.reset =>
      let r := resetLanes s.lanes s.lanes.length
      { lanes := r.1, totalCount := r.2 }

/-- Run a finite sequence of operations. -/
def runOps (s : MainState) (ops : List SysOp) : MainState :=
  ops.foldl applyOp s

/-- Sum of the per-lane counters. -/
def sumCounts (lanes : List Lane) : Nat := (lanes.map Lane.count).sum

/-- Timestamps (the `now_ms` arguments) of the calls that return
`true`, over a sequence of `(distance, now)` samples fed one by one to
`processLaneReading` for a single lane. -/
def countedTimes (lane : Lane) (inputs : List (Nat × Nat)) (lockout : Nat) :
    List Nat :=
  match inputs with
  | [] => []
  | (d, t) :: rest =>
      let r := processLaneReading lane d t lockout
      if r.2 then t :: countedTimes r.1 rest lockout
      else countedTimes r.1 rest lockout

/-- A healthy idle lane with the spec's example thresholds
(baseline 500, detect 420, clear 450). -/
def laneI : Lane :=
  { baseline_mm := 500, threshold_mm := 420, clearThresh_mm := 450, count := 0,
    state := LaneState.IDLE, lockoutStart := 0, sensorOk := true,
    lastDistance_mm := 0 }

/-- A healthy lane sitting in LOCKOUT since time 100. -/
def laneLock : Lane :=
  { baseline_mm := 500, threshold_mm := 420, clearThresh_mm := 450, count := 3,
    state := LaneState.LOCKOUT, lockoutStart := 100, sensorOk := true,
    lastDistance_mm := 0 }

/-- Sample trace used by witnesses: one complete
IDLE → BALL_PRESENT → LOCKOUT → IDLE cycle. -/
def inputsW : List (Nat × Nat) :=
  [(600, 0), (400, 10), (500, 20), (400, 30), (500, 100)]

/-! ### Branch equations for `processLaneReading` -/

theorem proc_unhealthy {lane : Lane} (d t lk : Nat) (hok : lane.sensorOk = false) :
    processLaneReading lane d t lk = (lane, false) := by
  simp [processLaneReading, hok]

theorem proc_idle_lt {lane : Lane} {d : Nat} (t lk : Nat)
    (hok : lane.sensorOk = true) (hst : lane.state = LaneState.IDLE)
    (hd : d < lane.threshold_mm) :
    processLaneReading lane d t lk =
      ({ lane with lastDistance_mm := d, state := LaneState.BALL_PRESENT }, false) := by
  simp [processLaneReading, hok, hst, hd]

theorem proc_idle_ge {lane : Lane} {d : Nat} (t lk : Nat)
    (hok : lane.sensorOk = true) (hst : lane.state = LaneState.IDLE)
    (hd : lane.threshold_mm ≤ d) :
    processLaneReading lane d t lk =
      ({ lane with lastDistance_mm := d }, false) := by
  simp [processLaneReading, hok, hst, Nat.not_lt_of_ge hd]

theorem proc_present_count {lane : Lane} {d : Nat} (t lk : Nat)
    (hok : lane.sensorOk = true) (hst : lane.state = LaneState.BALL_PRESENT)
    (hd : lane.clearThresh_mm < d) :
    processLaneReading lane d t lk =
      ({ lane with lastDistance_mm := d, count := (lane.count + 1) % U32,
                   state := LaneState.LOCKOUT, lockoutStart := t }, true) := by
  simp [processLaneReading, hok, hst, hd]

theorem proc_present_stay {lane : Lane} {d : Nat} (t lk : Nat)
    (hok : lane.sensorOk = true) (hst : lane.state = LaneState.BALL_PRESENT)
    (hd : d ≤ lane.clearThresh_mm) :
    processLaneReading lane d t lk =
      ({ lane with lastDistance_mm := d }, false) := by
  simp [processLaneReading, hok, hst, Nat.not_lt_of_ge hd]

theorem proc_lockout_exit {lane : Lane} {t lk : Nat} (d : Nat)
    (hok : lane.sensorOk = true) (hst : lane.state = LaneState.LOCKOUT)
    (ht : lk ≤ u32sub t lane.lockoutStart) :
    processLaneReading lane d t lk =
      ({ lane with lastDistance_mm := d, state := LaneState.IDLE }, false) := by
  simp [processLaneReading, hok, hst, ht]

theorem proc_lockout_stay {lane : Lane} {t lk : Nat} (d : Nat)
    (hok : lane.sensorOk = true) (hst : lane.state = LaneState.LOCKOUT)
    (ht : u32sub t lane.lockoutStart < lk) :
    processLaneReading lane d t lk =
      ({ lane with lastDistance_mm := d }, false) := by
  simp [processLaneReading, hok, hst, Nat.not_le_of_lt ht]

/-- The per-lane counter after one call: incremented (as a `uint32_t`)
exactly when the call returned `true`, unchanged otherwise. -/
theorem proc_count_eq (lane : Lane) (d t lk : Nat) :
    (processLaneReading lane d t lk).1.count =
      (if (processLaneReading lane d t lk).2 then (lane.count + 1) % U32
       else lane.count) := by
  cases hok : lane.sensorOk with
  | false => simp [proc_unhealthy d t lk hok]
  | true =>
      cases hst : lane.state with
      | IDLE =>
          rcases Nat.lt_or_ge d lane.threshold_mm with hd | hd
          · simp [proc_idle_lt t lk hok hst hd]
          · simp [proc_idle_ge t lk hok hst hd]
      | BALL_PRESENT =>
          rcases Nat.lt_or_ge lane.clearThresh_mm d with hd | hd
          · simp [proc_present_count t lk hok hst hd]
          · simp [proc_present_stay t lk hok hst hd]
      | LOCKOUT =>
          rcases Nat.lt_or_ge (u32sub t lane.lockoutStart) lk with ht | ht
          · simp [proc_lockout_stay d hok hst ht]
          · simp [proc_lockout_exit d hok hst ht]

/-- Wrapping `uint32_t` subtraction agrees with true subtraction when
no underflow occurs. -/
theorem u32sub_eq_sub {a b : Nat} (hba : b ≤ a) (ha : a < U32) :
    u32sub a b = a - b := by
  have h1 : a + U32 - b = a - b + U32 := by omega
  rw [u32sub, h1, Nat.add_mod_right, Nat.mod_eq_of_lt (by omega)]

/-! ### Claim theorems -/

/-- C1 (counterexample): the claim's transition table says that in every
(state, distance) combination other than the two listed ones the state
is unchanged, but a healthy lane in LOCKOUT whose lockout has elapsed
(here: entered at 100, sampled at 200 with `lockout_ms = 50`) moves to
IDLE, so its state does change. -/
theorem c1_counterexample :
    laneLock.sensorOk = true ∧ laneLock.state = LaneState.LOCKOUT ∧
    (processLaneReading laneLock 500 200 50).2 = false ∧
    (processLaneReading laneLock 500 200 50).1.state = LaneState.IDLE ∧
    (processLaneReading laneLock 500 200 50).1.state ≠ laneLock.state := by
  decide

/-- C1 (amended): for every healthy lane, one `processLaneReading` call
implements exactly this transition table — in IDLE, `distance <
detect_threshold` (strict) moves to BALL_PRESENT with no count; in
BALL_PRESENT, `distance > clear_threshold` (strict) increments `count`
(as a `uint32_t`), records `lockoutStart = now`, moves to LOCKOUT and
returns `true`, and this is the only case returning `true`; in LOCKOUT
the state moves to IDLE exactly when the wrapping 32-bit difference
`now - lockoutStart` has reached `lockout_ms`, with no count; every
other combination leaves state and count unchanged and returns
`false`; a distance exactly equal to a threshold triggers nothing. -/
theorem c1_transition_table (lane : Lane) (d now lk : Nat)
    (hok : lane.sensorOk = true) :
    (lane.state = LaneState.IDLE →
      (processLaneReading lane d now lk).2 = false ∧
      (processLaneReading lane d now lk).1.count = lane.count ∧
      (d < lane.threshold_mm →
        (processLaneReading lane d now lk).1.state = LaneState.BALL_PRESENT) ∧
      (lane.threshold_mm ≤ d →
        (processLaneReading lane d now lk).1.state = LaneState.IDLE)) ∧
    (lane.state = LaneState.BALL_PRESENT →
      (lane.clearThresh_mm < d →
        (processLaneReading lane d now lk).2 = true ∧
        (processLaneReading lane d now lk).1.count = (lane.count + 1) % U32 ∧
        (processLaneReading lane d now lk).1.state = LaneState.LOCKOUT ∧
        (processLaneReading lane d now lk).1.lockoutStart = now) ∧
      (d ≤ lane.clearThresh_mm →
        (processLaneReading lane d now lk).2 = false ∧
        (processLaneReading lane d now lk).1.count = lane.count ∧
        (processLaneReading lane d now lk).1.state = LaneState.BALL_PRESENT)) ∧
    (lane.state = LaneState.LOCKOUT →
      (processLaneReading lane d now lk).2 = false ∧
      (processLaneReading lane d now lk).1.count = lane.count ∧
      (lk ≤ u32sub now lane.lockoutStart →
        (processLaneReading lane d now lk).1.state = LaneState.IDLE) ∧
      (u32sub now lane.lockoutStart < lk →
        (processLaneReading lane d now lk).1.state = LaneState.LOCKOUT)) ∧
    ((processLaneReading lane d now lk).2 = true ↔
      lane.state = LaneState.BALL_PRESENT ∧ lane.clearThresh_mm < d) := by
  refine ⟨?_, ?_, ?_, ?_⟩
  · intro hst
    rcases Nat.lt_or_ge d lane.threshold_mm with hd | hd
    · simp [proc_idle_lt now lk hok hst hd]
      exact hd
    · simp [proc_idle_ge now lk hok hst hd, hd]
      exact hst
  · intro hst
    constructor
    · intro hd
      simp [proc_present_count now lk hok hst hd]
    · intro hd
      simp [proc_present_stay now lk hok hst hd]
      exact hst
  · intro hst
    rcases Nat.lt_or_ge (u32sub now lane.lockoutStart) lk with ht | ht
    · simp [proc_lockout_stay d hok hst ht, Nat.not_le_of_lt ht]
      exact fun _ => hst
    · simp [proc_lockout_exit d hok hst ht]
      omega
  · constructor
    · intro hcount
      cases hst : lane.state with
      | IDLE =>
          rcases Nat.lt_or_ge d lane.threshold_mm with hd | hd
          · rw [proc_idle_lt now lk hok hst hd] at hcount; cases hcount
          · rw [proc_idle_ge now lk hok hst hd] at hcount; cases hcount
      | BALL_PRESENT =>
          rcases Nat.lt_or_ge lane.clearThresh_mm d with hd | hd
          · exact ⟨rfl, hd⟩

          · rw [proc_present_stay now lk hok hst hd] at hcount; cases hcount
      | LOCKOUT =>
          rcases Nat.lt_or_ge (u32sub now lane.lockoutStart) lk with ht | ht
          · rw [proc_lockout_stay d hok hst ht] at hcount; cases hcount
          · rw [proc_lockout_exit d hok hst ht] at hcount; cases hcount
    · intro h
      simp [proc_present_count now lk hok h.1 h.2]

/-- C1 (witness): the amended transition table applied to the concrete
healthy idle lane `laneI` and a sample below its detect threshold. -/
theorem c1_witness :
    laneI.sensorOk = true ∧
    (processLaneReading laneI 400 10 60).2 = false ∧
    (processLaneReading laneI 400 10 60).1.state = LaneState.BALL_PRESENT :=
  ⟨rfl, ((c1_transition_table laneI 400 10 60 rfl).1 rfl).1,
    ((c1_transition_table laneI 400 10 60 rfl).1 rfl).2.2.1 (by decide)⟩

/-- C3: `calculateThresholds` does NOT clamp: with
`baseline = 100 < detection_delta = 200` the `uint16_t` subtraction
wraps to 65436 instead of saturating to 0. -/
theorem c3_wrap_eval :
    (calculateThresholds laneDefault 100 200 30).threshold_mm = 65436 ∧
    (calculateThresholds laneDefault 100 200 30).threshold_mm ≠ 0 := by
  decide

/-- C4: the lockout subtraction does NOT saturate: a lane in LOCKOUT
since time 100, processed with `now = 0` and `lockout_ms = 50`, sees
the wrapped difference 4294967196 ≥ 50 and leaves LOCKOUT although the
true elapsed time is far below the lockout duration. -/
theorem c4_wrap_eval :
    laneLock.state = LaneState.LOCKOUT ∧ laneLock.lockoutStart = 100 ∧
    u32sub 0 laneLock.lockoutStart = 4294967196 ∧
    (processLaneReading laneLock 500 0 50).1.state = LaneState.IDLE := by
  decide

/-- C7: for an unhealthy lane `processLaneReading` is a strict no-op
returning `false` (no field, `lastDistance_mm` included, is written);
for a healthy lane `lastDistance_mm` is set to the supplied sample on
every call, whatever transition is taken. -/
theorem c7_health_gate (lane : Lane) (d now lk : Nat) :
    (lane.sensorOk = false → processLaneReading lane d now lk = (lane, false)) ∧
    (lane.sensorOk = true →
      (processLaneReading lane d now lk).1.lastDistance_mm = d) := by
  constructor
  · intro hok
    exact proc_unhealthy d now lk hok
  · intro hok
    cases hst : lane.state with
    | IDLE =>
        rcases Nat.lt_or_ge d lane.threshold_mm with hd | hd
        · simp [proc_idle_lt now lk hok hst hd]
        · simp [proc_idle_ge now lk hok hst hd]
    | BALL_PRESENT =>
        rcases Nat.lt_or_ge lane.clearThresh_mm d with hd | hd
        · simp [proc_present_count now lk hok hst hd]
        · simp [proc_present_stay now lk hok hst hd]
    | LOCKOUT =>
        rcases Nat.lt_or_ge (u32sub now lane.lockoutStart) lk with ht | ht
        · simp [proc_lockout_stay d hok hst ht]
        · simp [proc_lockout_exit d hok hst ht]

/-- C7 (witness): the two implications of `c7_health_gate` at concrete
lanes — the default (unhealthy) lane is untouched, and the healthy lane
`laneI` records the sample 999. -/
theorem c7_witness :
    laneDefault.sensorOk = false ∧
    processLaneReading laneDefault 999 0 0 = (laneDefault, false) ∧
    laneI.sensorOk = true ∧
    (processLaneReading laneI 999 0 0).1.lastDistance_mm = 999 :=
  ⟨rfl, (c7_health_gate laneDefault 999 0 0).1 rfl, rfl,
    (c7_health_gate laneI 999 0 0).2 rfl⟩

/-- C10: one call moves along at most one edge of the transition graph:
from IDLE a call never counts and never reaches LOCKOUT, and a call in
LOCKOUT never counts and never re-enters BALL_PRESENT — so a counted
event starting from IDLE needs at least two calls. -/
theorem c10_single_edge (lane : Lane) (d now lk : Nat) :
    (lane.state = LaneState.IDLE →
      (processLaneReading lane d now lk).2 = false ∧
      (processLaneReading lane d now lk).1.state ≠ LaneState.LOCKOUT) ∧
    (lane.state = LaneState.LOCKOUT →
      (processLaneReading lane d now lk).2 = false ∧
      (processLaneReading lane d now lk).1.state ≠ LaneState.BALL_PRESENT) := by
  cases hok : lane.sensorOk with
  | false =>
      rw [proc_unhealthy d now lk hok]
      constructor
      · intro hst
        simp [hst]
      · intro hst
        simp [hst]
  | true =>
      constructor
      · intro hst
        rcases Nat.lt_or_ge d lane.threshold_mm with hd | hd
        · simp [proc_idle_lt now lk hok hst hd]
        · simp [proc_idle_ge now lk hok hst hd, hst]
      · intro hst
        rcases Nat.lt_or_ge (u32sub now lane.lockoutStart) lk with ht | ht
        · simp [proc_lockout_stay d hok hst ht, hst]
        · simp [proc_lockout_exit d hok hst ht]

/-- C10 (witness): the single-edge property at concrete lanes, for the
IDLE edge (`laneI`) and the LOCKOUT edge (`laneLock`). -/
theorem c10_witness :
    laneI.state = LaneState.IDLE ∧
    (processLaneReading laneI 400 10 60).2 = false ∧
    (processLaneReading laneI 400 10 60).1.state ≠ LaneState.LOCKOUT ∧
    laneLock.state = LaneState.LOCKOUT ∧
    (processLaneReading laneLock 500 200 50).1.state ≠ LaneState.BALL_PRESENT :=
  ⟨rfl, ((c10_single_edge laneI 400 10 60).1 rfl).1,
    ((c10_single_edge laneI 400 10 60).1 rfl).2, rfl,
    ((c10_single_edge laneLock 500 200 50).2 rfl).2⟩

/-- Element `i` of the lane array after the reset loop has run over at
least `i + 1` lanes: the lane is replaced by its `resetLane` image. -/
theorem resetLanesLoop_get? (lanes : List Lane) (n i : Nat)
    (hn : lanes.length ≤ n) (hi : i < lanes.length) :
    (resetLanesLoop lanes n).get? i = some (resetLane (lanes.get ⟨i, hi⟩)) := by
  induction lanes generalizing n i with
  | nil => exact absurd hi (Nat.not_lt_zero i)
  | cons a as ih =>
      cases n with
      | zero => exact absurd hn (by simp)
      | succ m =>
          cases i with
          | zero => simp [resetLanesLoop]
          | succ j =>
              have hn' : as.length ≤ m := by simpa using hn
              have hi' : j < as.length := by simpa using hi
              simpa [resetLanesLoop] using ih m j hn' hi'

/-- C5 (counterexample): the claim says reset returns
`lockout_start_time` to its initial value 0, but `resetLanes` leaves it
untouched: the lane `laneLock` entered LOCKOUT at time 100 and still
carries `lockoutStart = 100` after the reset. -/
theorem c5_counterexample :
    laneLock.lockoutStart = 100 ∧
    ((resetLanes [laneLock] 1).1.get? 0).map Lane.lockoutStart = some 100 ∧
    ((resetLanes [laneLock] 1).1.get? 0).map Lane.lockoutStart ≠ some 0 := by
  decide

/-- C5 (amended): for every lane and regardless of prior history, the
explicit reset sets `count = 0` and `state = IDLE`; `lockoutStart` is
left unchanged rather than reset to its initial value. -/
theorem c5_reset_fields (lanes : List Lane) (n i : Nat)
    (hn : lanes.length ≤ n) (hi : i < lanes.length) :
    ((resetLanes lanes n).1.get? i).map Lane.count = some 0 ∧
    ((resetLanes lanes n).1.get? i).map Lane.state = some LaneState.IDLE ∧
    ((resetLanes lanes n).1.get? i).map Lane.lockoutStart =
      some (lanes.get ⟨i, hi⟩).lockoutStart := by
  have h := resetLanesLoop_get? lanes n i hn hi
  refine ⟨?_, ?_, ?_⟩ <;> simp only [resetLanes] <;> rw [h] <;> rfl

/-- C5 (witness): the amended reset behaviour on the one-lane array
`[laneLock]`. -/
theorem c5_witness :
    [laneLock].length ≤ 1 ∧
    ((resetLanes [laneLock] 1).1.get? 0).map Lane.count = some 0 ∧
    ((resetLanes [laneLock] 1).1.get? 0).map Lane.state = some LaneState.IDLE ∧
    ((resetLanes [laneLock] 1).1.get? 0).map Lane.lockoutStart =
      some laneLock.lockoutStart :=
  ⟨by decide, (c5_reset_fields [laneLock] 1 0 (by decide) (by decide)).1,
    (c5_reset_fields [laneLock] 1 0 (by decide) (by decide)).2.1,
    (c5_reset_fields [laneLock] 1 0 (by decide) (by decide)).2.2⟩

/-- C6: `resetLanes` zeroes the total and maps every lane to itself
with only `count := 0` and `state := IDLE` changed — the record-update
form makes every other field (`baseline_mm`, `threshold_mm`,
`clearThresh_mm`, `sensorOk`, `lockoutStart`, `lastDistance_mm`)
explicitly unchanged, and a read immediately after the reset sees
`total = 0`, `count = 0`, `state = IDLE` on every lane. -/
theorem c6_reset_frame (lanes : List Lane) (n i : Nat)
    (hn : lanes.length ≤ n) (hi : i < lanes.length) :
    (resetLanes lanes n).2 = 0 ∧
    (resetLanes lanes n).1.get? i =
      some { lanes.get ⟨i, hi⟩ with count := 0, state := LaneState.IDLE } := by
  exact ⟨rfl, resetLanesLoop_get? lanes n i hn hi⟩

/-- C6 (witness): the reset frame property on the one-lane array
`[laneLock]`. -/
theorem c6_witness :
    [laneLock].length ≤ 1 ∧
    (resetLanes [laneLock] 1).2 = 0 ∧
    (resetLanes [laneLock] 1).1.get? 0 =
      some { laneLock with count := 0, state := LaneState.IDLE } :=
  ⟨by decide, (c6_reset_frame [laneLock] 1 0 (by decide) (by decide)).1,
    (c6_reset_frame [laneLock] 1 0 (by decide) (by decide)).2⟩

/-- C8 (counterexample): the invariant `clear_threshold >
detect_threshold` fails in general because the `uint16_t` addition
wraps: with `baseline = 65535`, `delta = 0`, `hysteresis = 30 > 0` the
derived thresholds are `detect = 65535` and `clear = 29`. -/
theorem c8_counterexample :
    (0 : Nat) < 30 ∧
    (calculateThresholds laneDefault 65535 0 30).threshold_mm = 65535 ∧
    (calculateThresholds laneDefault 65535 0 30).clearThresh_mm = 29 ∧
    ¬ (calculateThresholds laneDefault 65535 0 30).threshold_mm <
        (calculateThresholds laneDefault 65535 0 30).clearThresh_mm := by
  decide

/-- C8 (amended): whenever `clear_hysteresis > 0` and the `uint16_t`
addition `detect_threshold + clear_hysteresis` does not overflow,
`calculateThresholds` establishes `clear_threshold > detect_threshold`;
the spec's worked instance (baseline 500, delta 80, hysteresis 30)
yields `detect = 420` and `clear = 450`. -/
theorem c8_hysteresis (lane : Lane) (b d h : Nat) (hh : 0 < h)
    (hov : u16sub b d + h < U16) :
    (calculateThresholds lane b d h).threshold_mm <
      (calculateThresholds lane b d h).clearThresh_mm ∧
    (calculateThresholds lane 500 80 30).threshold_mm = 420 ∧
    (calculateThresholds lane 500 80 30).clearThresh_mm = 450 := by
  refine ⟨?_, ?_, ?_⟩
  · simp only [calculateThresholds]
    rw [Nat.mod_eq_of_lt hov]
    omega
  · simp [calculateThresholds, u16sub, U16]
  · simp [calculateThresholds, u16sub, U16]

/-- C8 (witness): the amended hysteresis invariant at the spec's
worked instance, where no overflow occurs. -/
theorem c8_witness :
    (0 : Nat) < 30 ∧ u16sub 500 80 + 30 < U16 ∧
    (calculateThresholds laneDefault 500 80 30).threshold_mm <
      (calculateThresholds laneDefault 500 80 30).clearThresh_mm :=
  ⟨by decide, by decide,
    (c8_hysteresis laneDefault 500 80 30 (by decide) (by decide)).1⟩

/-- Replacing one lane of the array changes the count sum by swapping
the old lane's count for the new one's. -/
theorem sumCounts_set (lanes : List Lane) (i : Nat) (x : Lane)
    (hi : i < lanes.length) :
    sumCounts (lanes.set i x) + (lanes.get ⟨i, hi⟩).count =
      sumCounts lanes + x.count := by
  induction lanes generalizing i with
  | nil => exact absurd hi (Nat.not_lt_zero i)
  | cons a as ih =>
      cases i with
      | zero =>
          simp [sumCounts]
          omega
      | succ j =>
          have hj : j < as.length := by simpa using hi
          have h := ih j hj
          simp [sumCounts, List.set] at h ⊢
          omega

/-- After the reset loop has covered the whole array, every count is
zero, so the count sum is zero. -/
theorem sumCounts_resetLoop (lanes : List Lane) (n : Nat)
    (hn : lanes.length ≤ n) :
    sumCounts (resetLanesLoop lanes n) = 0 := by
  induction lanes generalizing n with
  | nil =>
      cases n <;> simp [resetLanesLoop, sumCounts]
  | cons a as ih =>
      cases n with
      | zero => exact absurd hn (by simp)
      | succ m =>
          have hn' : as.length ≤ m := by simpa using hn
          simp [resetLanesLoop, sumCounts, resetLane]
          simpa [sumCounts] using ih m hn'

/-- The aggregator invariant: `totalCount` is the `uint32_t` value of
the sum of the per-lane counts. -/
def totalInv (s : MainState) : Prop :=
  s.totalCount = sumCounts s.lanes % U32

/-- One operation (a per-lane processing step or a bulk reset)
preserves the aggregator invariant. -/
theorem totalInv_applyOp (s : MainState) (op : SysOp) (h : totalInv s) :
    totalInv (applyOp s op) := by
  cases op with
  | reset =>
      simp only [totalInv, applyOp, resetLanes] at h ⊢
      simp [sumCounts_resetLoop s.lanes s.lanes.length (Nat.le_refl _)]
  | process ch dist now lockout =>
      simp only [totalInv, applyOp, updateLane] at h ⊢
      cases hget : s.lanes.get? ch with
      | none => exact h
      | some lane =>
          obtain ⟨hch, hlane⟩ := List.get?_eq_some.mp hget
          cases hok : lane.sensorOk with
          | false => simpa [hok] using h
          | true =>
              dsimp only
              rw [if_neg (by simp [hok])]
              have hset := sumCounts_set s.lanes ch
                (processLaneReading lane dist now lockout).1 hch
              rw [hlane] at hset
              have hcount := proc_count_eq lane dist now lockout
              cases hc : (processLaneReading lane dist now lockout).2 with
              | false =>
                  have hcnt : (processLaneReading lane dist now lockout).1.count
                      = lane.count := by simpa [hc] using hcount
                  rw [hcnt] at hset
                  have hsum : sumCounts (s.lanes.set ch
                      (processLaneReading lane dist now lockout).1) =
                      sumCounts s.lanes := by omega
                  simpa [hc, hsum] using h
              | true =>
                  have hcnt : (processLaneReading lane dist now lockout).1.count
                      = (lane.count + 1) % U32 := by simpa [hc] using hcount
                  rw [hcnt] at hset
                  rw [if_pos (by simp [hc]), h]
                  simp only [U32] at hset ⊢
                  omega

/-- Running any finite operation sequence preserves the aggregator
invariant. -/
theorem totalInv_runOps (s : MainState) (ops : List SysOp) (h : totalInv s) :
    totalInv (runOps s ops) := by
  induction ops generalizing s with
  | nil => exact h
  | cons op ops ih => exact ih (applyOp s op) (totalInv_applyOp s op h)

/-- C2: starting from the startup state (all lane counts zero, total
zero), after any finite sequence of per-lane processing calls and
resets the global `totalCount` equals the sum of all lane counts (as
`uint32_t` values, i.e. modulo `2^32`). -/
theorem c2_total_eq_sum (lanes0 : List Lane) (ops : List SysOp)
    (h0 : ∀ l ∈ lanes0, Lane.count l = 0) :
    (runOps { lanes := lanes0, totalCount := 0 } ops).totalCount =
      sumCounts (runOps { lanes := lanes0, totalCount := 0 } ops).lanes % U32 := by
  have hinv : totalInv { lanes := lanes0, totalCount := 0 } := by
    have hz : sumCounts lanes0 = 0 := by
      apply List.sum_eq_zero
      intro x hx
      rcases List.mem_map.mp hx with ⟨l, hl, rfl⟩
      exact h0 l hl
    simp [totalInv, hz]
  exact totalInv_runOps _ ops hinv

/-- Operation sequence used by the C2 witness: two processing steps
that count once, a bulk reset, and one more processing step. -/
def opsW : List SysOp :=
  [SysOp.process 0 400 0 60, SysOp.process 0 500 10 60,
   SysOp.reset, SysOp.process 0 400 20 60]

/-- C2 (witness): the aggregate invariant after the concrete operation
sequence `opsW` on the one-lane startup state `[laneI]`. -/
theorem c2_witness :
    (∀ l ∈ [laneI], Lane.count l = 0) ∧
    (runOps { lanes := [laneI], totalCount := 0 } opsW).totalCount =
      sumCounts (runOps { lanes := [laneI], totalCount := 0 } opsW).lanes % U32 :=
  ⟨by decide, c2_total_eq_sum [laneI] opsW (by decide)⟩

/-- Every counted timestamp is one of the supplied sample timestamps. -/
theorem countedTimes_subset (inputs : List (Nat × Nat)) :
    ∀ (lane : Lane) (lk t : Nat),
      t ∈ countedTimes lane inputs lk → t ∈ inputs.map Prod.snd := by
  induction inputs with
  | nil =>
      intro lane lk t ht
      simp [countedTimes] at ht
  | cons p rest ih =>
      obtain ⟨d, t0⟩ := p
      intro lane lk t ht
      simp only [countedTimes] at ht
      rw [List.map_cons]
      by_cases hc : (processLaneReading lane d t0 lk).2 = true
      · rw [if_pos hc] at ht
        rcases List.mem_cons.mp ht with rfl | h2
        · exact List.mem_cons_self _ _
        · exact List.mem_cons_of_mem _ (ih _ lk t h2)
      · rw [if_neg hc] at ht
        exact List.mem_cons_of_mem _ (ih _ lk t ht)

/-- Once a lane is in LOCKOUT, no counted event can occur before
`lockoutStart + lockout`: the lane must first leave LOCKOUT, which
(with in-range, non-decreasing timestamps) requires a sample at least
`lockout` after `lockoutStart`, and all later samples are no earlier. -/
theorem counted_ge_of_lockout (inputs : List (Nat × Nat)) :
    ∀ (lane : Lane) (lk : Nat),
      lane.state = LaneState.LOCKOUT →
      (∀ p ∈ inputs,
        lane.lockoutStart ≤ (p : Nat × Nat).2 ∧ (p : Nat × Nat).2 < U32) →
      (inputs.map Prod.snd).Pairwise (fun a b => a ≤ b) →
      ∀ t ∈ countedTimes lane inputs lk, lane.lockoutStart + lk ≤ t := by
  induction inputs with
  | nil =>
      intro lane lk _ _ _ t ht
      simp [countedTimes] at ht
  | cons p rest ih =>
      obtain ⟨d, t0⟩ := p
      intro lane lk hst hbound hmono t ht
      have hb0 := hbound (d, t0) (List.mem_cons_self _ _)
      have hbound' : ∀ q ∈ rest,
          lane.lockoutStart ≤ (q : Nat × Nat).2 ∧ (q : Nat × Nat).2 < U32 :=
        fun q hq => hbound q (List.mem_cons_of_mem _ hq)
      have hmono2 : (t0 :: rest.map Prod.snd).Pairwise (fun a b => a ≤ b) := by
        simpa using hmono
      have hmono' := (List.pairwise_cons.mp hmono2).2
      cases hok : lane.sensorOk with
      | false =>
          simp only [countedTimes, proc_unhealthy d t0 lk hok] at ht
          rw [if_neg (by simp)] at ht
          exact ih lane lk hst hbound' hmono' t ht
      | true =>
          rcases Nat.lt_or_ge (u32sub t0 lane.lockoutStart) lk with hlt | hge
          · simp only [countedTimes, proc_lockout_stay d hok hst hlt] at ht
            rw [if_neg (by simp)] at ht
            exact ih { lane with lastDistance_mm := d } lk hst hbound' hmono' t ht
          · simp only [countedTimes, proc_lockout_exit d hok hst hge] at ht
            rw [if_neg (by simp)] at ht
            have hmem : t ∈ rest.map Prod.snd := countedTimes_subset rest _ lk t ht
            have ht0 : t0 ≤ t := (List.pairwise_cons.mp hmono2).1 t hmem
            have hsub : u32sub t0 lane.lockoutStart = t0 - lane.lockoutStart :=
              u32sub_eq_sub hb0.1 hb0.2
            rw [hsub] at hge
            have := hb0.1
            omega

/-- Consecutive counted timestamps of a single lane are at least the
lockout duration apart, for any in-range non-decreasing sample trace. -/
theorem countedTimes_pairwise (inputs : List (Nat × Nat)) :
    ∀ (lane : Lane) (lk : Nat),
      (∀ p ∈ inputs, (p : Nat × Nat).2 < U32) →
      (inputs.map Prod.snd).Pairwise (fun a b => a ≤ b) →
      (countedTimes lane inputs lk).Pairwise (fun a b => a + lk ≤ b) := by
  induction inputs with
  | nil =>
      intro lane lk _ _
      simp [countedTimes]
  | cons p rest ih =>
      obtain ⟨d, t0⟩ := p
      intro lane lk hbound hmono
      have hbound' : ∀ q ∈ rest, (q : Nat × Nat).2 < U32 :=
        fun q hq => hbound q (List.mem_cons_of_mem _ hq)
      have hmono2 : (t0 :: rest.map Prod.snd).Pairwise (fun a b => a ≤ b) := by
        simpa using hmono
      have hmono' := (List.pairwise_cons.mp hmono2).2
      have hhead := (List.pairwise_cons.mp hmono2).1
      cases hok : lane.sensorOk with
      | false =>
          simp only [countedTimes, proc_unhealthy d t0 lk hok]
          rw [if_neg (by simp)]
          exact ih lane lk hbound' hmono'
      | true =>
          cases hst : lane.state with
          | IDLE =>
              rcases Nat.lt_or_ge d lane.threshold_mm with hd | hd
              · simp only [countedTimes, proc_idle_lt t0 lk hok hst hd]
                rw [if_neg (by simp)]
                exact ih _ lk hbound' hmono'
              · simp only [countedTimes, proc_idle_ge t0 lk hok hst hd]
                rw [if_neg (by simp)]
                exact ih _ lk hbound' hmono'
          | BALL_PRESENT =>
              rcases Nat.lt_or_ge lane.clearThresh_mm d with hd | hd
              · simp only [countedTimes, proc_present_count t0 lk hok hst hd]
                rw [if_pos trivial]
                refine List.pairwise_cons.mpr ⟨?_, ih _ lk hbound' hmono'⟩
                intro t ht
                exact counted_ge_of_lockout rest _ lk rfl
                  (fun q hq => ⟨hhead (q : Nat × Nat).2
                      (List.mem_map_of_mem Prod.snd hq), hbound' q hq⟩)
                  hmono' t ht
              · simp only [countedTimes, proc_present_stay t0 lk hok hst hd]
                rw [if_neg (by simp)]
                exact ih _ lk hbound' hmono'
          | LOCKOUT =>
              rcases Nat.lt_or_ge (u32sub t0 lane.lockoutStart) lk with hlt | hge
              · simp only [countedTimes, proc_lockout_stay d hok hst hlt]
                rw [if_neg (by simp)]
                exact ih _ lk hbound' hmono'
              · simp only [countedTimes, proc_lockout_exit d hok hst hge]
                rw [if_neg (by simp)]
                exact ih _ lk hbound' hmono'

/-- C9: for every lane and every sample sequence whose timestamps are
in `uint32_t` range and monotonically non-decreasing, the timestamps of
the calls that counted are pairwise at least `lockout` apart — no two
counted events of one lane lie closer than the lockout duration. -/
theorem c9_lockout_spacing (lane : Lane) (inputs : List (Nat × Nat)) (lk : Nat)
    (hbound : ∀ p ∈ inputs, (p : Nat × Nat).2 < U32)
    (hmono : (inputs.map Prod.snd).Pairwise (fun a b => a ≤ b)) :
    (countedTimes lane inputs lk).Pairwise (fun a b => a + lk ≤ b) :=
  countedTimes_pairwise inputs lane lk hbound hmono

/-- C9 (witness): the lockout spacing property on the concrete trace
`inputsW` for the healthy idle lane `laneI` with a 60-unit lockout. -/
theorem c9_witness :
    (∀ p ∈ inputsW, (p : Nat × Nat).2 < U32) ∧
    (inputsW.map Prod.snd).Pairwise (fun a b => a ≤ b) ∧
    (countedTimes laneI inputsW 60).Pairwise (fun a b => a + 60 ≤ b) :=
  ⟨by decide, by decide, c9_lockout_spacing laneI inputsW 60 (by decide) (by decide)⟩

end FuelCounter
